import Mathlib

/-!
Verification of the FedEx tracking client (src/fedex_api.py).

The embedding models the core logic of `FedexAPI.track_by_number` and
`FedexAPI.download_pod`:
  - the `Event` enumeration and the `DateAndTimeEvent` / `TrackingResult`
    records (the domain model);
  - the per-result event-normalization loop (lines 168-206) as a fold
    `stepEvent` over the event list, producing a `TrackingResult`;
  - the multi-result resolution loop (lines 209-215) as `resolveLoop`;
  - the orchestrator `track_by_number` over an abstract decoded transport
    response, with Python runtime faults (KeyError from `Event[tag]`,
    TypeError from comparing `None`) made explicit in an `Except`;
  - `download_pod` over the same abstract response.

Timestamps (`datetime.fromisoformat` results) are modelled as `Int` values;
only their ordering matters to the code.  Python `None`-able values are
`Option`s.  The pair of loop variables `latest_date` / `latest_type`, which
the source always assigns together, is modelled as one
`Option DateAndTimeEvent`.
-/

/-- The `Event` enumeration of src/fedex_api.py (lines 37-50). -/
inductive Event where
  | ACTUAL_DELIVERY
  | ACTUAL_PICKUP
  | ACTUAL_TENDER
  | ANTICIPATED_TENDER
  | APPOINTMENT_DELIVERY
  | ATTEMPTED_DELIVERY
  | COMMITMENT
  | ESTIMATED_ARRIVAL_AT_GATEWAY
  | ESTIMATED_DELIVERY
  | ESTIMATED_PICKUP
  | ESTIMATED_RETURN_TO_STATION
  | SHIP
  | SHIPMENT_DATA_RECEIVED
  deriving DecidableEq, Repr

/-- The `PackageType` enumeration of src/fedex_api.py (lines 53-84). -/
inductive PackageType where
  | BAG | BARREL | BASKET | BOX | BUCKET | BUNDLE | CAGE | CARTON | CASE
  | CHEST | CONTAINER | CRATE | CYLINDER | DRUM | ENVELOPE | HAMPER | OTHER
  | PACKAGE | PAIL | PALLET | PARCEL | PIECE | REEL | ROLL | SACK
  | SHRINK_WRAPPED | SKID | TANK | TOTE_BIN | TUBE | UNIT
  deriving DecidableEq, Repr

/-- `DateAndTimeEvent` dataclass (lines 87-90); the timestamp is an `Int`. -/
structure DateAndTimeEvent where
  datetime : Int
  type : Event
  deriving DecidableEq, Repr

/-- `Package` dataclass (lines 93-96). -/
structure Package where
  type : PackageType
  count : Int
  deriving DecidableEq, Repr

/-- `TrackingResult` dataclass (lines 99-111): every field except
`is_valid` defaults to Python `None`, modelled by `Option` with default
`none`. -/
structure TrackingResult where
  is_valid : Bool
  tracking_number : Option String := none
  unique_id : Option String := none
  carrier_code : Option String := none
  is_delivered : Option Bool := none
  is_shipped : Option Bool := none
  date_ship : Option Int := none
  date_delivery : Option Int := none
  latest_status : Option DateAndTimeEvent := none
  events : Option (List DateAndTimeEvent) := none
  package : Option Package := none
  deriving DecidableEq, Repr

/-- `TrackingResult(False)`: the invalid result the code returns on HTTP
failure, application error, or a result block missing `dateAndTimes`. -/
def TrackingResult.invalid : TrackingResult := { is_valid := false }

/-- The running state of the event loop of `track_by_number`
(lines 168-174): `shipped`, `delivered`, `ship_date`, `delivery_date`,
the `latest_date` / `latest_type` pair, and the accumulated `events`. -/
structure NormState where
  shipped : Bool
  delivered : Bool
  ship_date : Option Int
  delivery_date : Option Int
  latest : Option DateAndTimeEvent
  events : List DateAndTimeEvent
  deriving DecidableEq, Repr

/-- The loop-variable initialisation at lines 168-174. -/
def initState : NormState :=
  { shipped := false, delivered := false, ship_date := none,
    delivery_date := none, latest := none, events := [] }

/-- One iteration of the event loop (lines 180-192): the
SHIP / ACTUAL_DELIVERY / ESTIMATED_DELIVERY `elif` chain, the
strictly-greater latest update, and the append to `events`.  NOTE: as in
the source, the ESTIMATED_DELIVERY branch assigns `delivery_date`
unconditionally (no check of `delivered`). -/
def stepEvent (s : NormState) (ev : DateAndTimeEvent) : NormState :=
  let s1 :=
    if ev.type = Event.SHIP then
      { s with shipped := true, ship_date := some ev.datetime }
    else if ev.type = Event.ACTUAL_DELIVERY then
      { s with delivered := true, delivery_date := some ev.datetime }
    else if ev.type = Event.ESTIMATED_DELIVERY then
      { s with delivery_date := some ev.datetime }
    else s
  let s2 :=
    match s1.latest with
    | none => { s1 with latest := some ev }
    | some cur =>
        if ev.datetime > cur.datetime then { s1 with latest := some ev } else s1
  { s2 with events := s2.events ++ [ev] }

/-- Assembly of the per-block `TrackingResult` (lines 193-206): always
`is_valid=True`, `latest_status = DateAndTimeEvent(latest_date, latest_type)`
(the `None, None` pair is the `none` case), `package` left `None` (the
source comments that assignment out). -/
def buildResult (tn uid cc : String) (s : NormState) : TrackingResult :=
  { is_valid := true
    tracking_number := some tn
    unique_id := some uid
    carrier_code := some cc
    is_delivered := some s.delivered
    is_shipped := some s.shipped
    date_ship := s.ship_date
    date_delivery := s.delivery_date
    latest_status := s.latest
    events := some s.events
    package := none }

/-- The event normalizer: lines 168-206 applied to an already-decoded
event list. -/
def normalizeEvents (tn uid cc : String) (evts : List DateAndTimeEvent) :
    TrackingResult :=
  buildResult tn uid cc (evts.foldl stepEvent initState)

/-- Python runtime faults that propagate uncaught out of
`track_by_number`: the `KeyError` raised by `Event[tag]` on an
unrecognized tag (line 178) and the `TypeError` raised when `>` compares
`None` timestamps (line 212). -/
inductive PyFault where
  | keyError (tag : String)
  | typeError
  deriving DecidableEq, Repr

/-- One entry of a result block's `dateAndTimes` list: a `type` tag string
and a timestamp (the parsed `dateTime`). -/
structure RawEvent where
  typeTag : String
  dateTime : Int
  deriving DecidableEq, Repr

/-- One decoded result block of the response: the `trackingNumberInfo`
identifiers (lines 164-167) and the optional `dateAndTimes` list (`none`
models the key being absent, line 175). -/
structure RawTrackResult where
  trackingNumber : String
  uniqueId : String
  carrierCode : String
  dateAndTimes : Option (List RawEvent)
  deriving DecidableEq, Repr

/-- The transport response as `track_by_number` observes it:
an HTTP-status failure (`raise_for_status`, lines 153-156), a body whose
JSON carries an `errors` key (lines 158-159), or the
`output.completeTrackResults` nesting of result-block lists. -/
inductive RawResponse where
  | httpError
  | jsonErrors
  | ok (completeTrackResults : List (List RawTrackResult))
  deriving DecidableEq, Repr

/-- `Event[tag]` (line 178): name lookup in the `Event` enumeration;
`none` models the `KeyError` on an unrecognized tag. -/
def eventFromTag (tag : String) : Option Event :=
  if tag = "ACTUAL_DELIVERY" then some Event.ACTUAL_DELIVERY
  else if tag = "ACTUAL_PICKUP" then some Event.ACTUAL_PICKUP
  else if tag = "ACTUAL_TENDER" then some Event.ACTUAL_TENDER
  else if tag = "ANTICIPATED_TENDER" then some Event.ANTICIPATED_TENDER
  else if tag = "APPOINTMENT_DELIVERY" then some Event.APPOINTMENT_DELIVERY
  else if tag = "ATTEMPTED_DELIVERY" then some Event.ATTEMPTED_DELIVERY
  else if tag = "COMMITMENT" then some Event.COMMITMENT
  else if tag = "ESTIMATED_ARRIVAL_AT_GATEWAY" then
    some Event.ESTIMATED_ARRIVAL_AT_GATEWAY
  else if tag = "ESTIMATED_DELIVERY" then some Event.ESTIMATED_DELIVERY
  else if tag = "ESTIMATED_PICKUP" then some Event.ESTIMATED_PICKUP
  else if tag = "ESTIMATED_RETURN_TO_STATION" then
    some Event.ESTIMATED_RETURN_TO_STATION
  else if tag = "SHIP" then some Event.SHIP
  else if tag = "SHIPMENT_DATA_RECEIVED" then some Event.SHIPMENT_DATA_RECEIVED
  else none

/-- The event loop over a raw `dateAndTimes` list (lines 177-192): each
event's tag is decoded by `Event[...]` — an unrecognized tag raises
`KeyError`, aborting the whole call — and then folded into the state. -/
def processEvents (s : NormState) : List RawEvent → Except PyFault NormState
  | [] => Except.ok s
  | ev :: rest =>
    match eventFromTag ev.typeTag with
    | none => Except.error (PyFault.keyError ev.typeTag)
    | some k => processEvents (stepEvent s ⟨ev.dateTime, k⟩) rest

/-- The result-block loop (lines 163-207): a block missing `dateAndTimes`
makes the whole call return `TrackingResult(False)` early (modelled by
`Except.ok none`); otherwise the block's events are normalized and the
result appended to the accumulator. -/
def processResults (acc : List TrackingResult) :
    List RawTrackResult → Except PyFault (Option (List TrackingResult))
  | [] => Except.ok (some acc)
  | tr :: rest =>
    match tr.dateAndTimes with
    | none => Except.ok none
    | some raws =>
      match processEvents initState raws with
      | Except.error f => Except.error f
      | Except.ok s =>
        processResults
          (acc ++ [buildResult tr.trackingNumber tr.uniqueId tr.carrierCode s])
          rest

/-- `result.latest_status.datetime` as the resolver loop reads it
(line 212): `none` models the attribute holding Python `None`. -/
def lsDatetime (r : TrackingResult) : Option Int :=
  match r.latest_status with
  | some e => some e.datetime
  | none => none

/-- The multi-result resolution loop (lines 209-215): keep the first
result, then replace it only on a strictly greater
`latest_status.datetime`.  Comparing a `None` timestamp with `>` raises
`TypeError` in Python, modelled by `Except.error PyFault.typeError`. -/
def resolveLoop (latest_date : Option Int) (latest_result : Option TrackingResult) :
    List TrackingResult → Except PyFault (Option TrackingResult)
  | [] => Except.ok latest_result
  | r :: rest =>
    match latest_result with
    | none => resolveLoop (lsDatetime r) (some r) rest
    | some _ =>
      match lsDatetime r, latest_date with
      | some d, some ld =>
        if d > ld then resolveLoop (some d) (some r) rest
        else resolveLoop latest_date latest_result rest
      | _, _ => Except.error PyFault.typeError

/-- The multi-result resolver: the loop started from the `None`
initialisations at lines 209-210; on an empty list it returns the initial
`latest_result`, i.e. Python `None`. -/
def resolveResults (rs : List TrackingResult) :
    Except PyFault (Option TrackingResult) :=
  resolveLoop none none rs

/-- `FedexAPI.track_by_number` (lines 145-215) over the decoded transport
response: early `TrackingResult(False)` on HTTP failure or an `errors`
body; otherwise the nested result-block loops followed by the resolver.
`Except.ok none` is the call returning Python `None`. -/
def track_by_number (resp : RawResponse) :
    Except PyFault (Option TrackingResult) :=
  match resp with
  | RawResponse.httpError => Except.ok (some TrackingResult.invalid)
  | RawResponse.jsonErrors => Except.ok (some TrackingResult.invalid)
  | RawResponse.ok blocks =>
    match processResults [] blocks.flatten with
    | Except.error f => Except.error f
    | Except.ok none => Except.ok (some TrackingResult.invalid)
    | Except.ok (some results) => resolveLoop none none results

/-- Python `str.split` on the single character `~`, on the character
list of the string: `split` with an explicit separator returns one piece
more than the number of separators, so the empty string yields one empty
piece. -/
def splitTildeAux : List Char → List (List Char)
  | [] => [[]]
  | c :: rest =>
    match splitTildeAux rest with
    | [] => [[]]
    | s :: ss => if c = '~' then [] :: s :: ss else (c :: s) :: ss

/-- `unique_id.split('~')` (lines 218, 223-224). -/
def pySplitTilde (s : String) : List String :=
  (splitTildeAux s.data).map fun cs => String.mk cs

/-- The observable outcome of `download_pod`: the `InvalidRequestError`
raised at line 221, any other uncaught Python exception (a fault from
`track_by_number`, `None.is_valid` / `None.split`, or the `[1]` index on
a splitless id), or a call to `_download_file` with the qualifier and
tracking number substituted into the URL (line 225-227). -/
inductive PodResult where
  | raisedInvalidRequest
  | raisedOther
  | downloaded (qualifier trackingNumber newFilename : String)
  deriving DecidableEq, Repr

/-- The tail of `download_pod` (lines 223-227): split the id on `~` and
call `_download_file`; a missing `[1]` piece is an `IndexError`. -/
def podFinish (uid fname : String) : PodResult :=
  match pySplitTilde uid with
  | q :: tn :: _ => PodResult.downloaded q tn fname
  | _ => PodResult.raisedOther

/-- `FedexAPI.download_pod` (lines 217-227), with the transport response
the inner `track_by_number` call would observe passed explicitly: a bare
id (no `~`) is resolved by tracking; an invalid result raises
`InvalidRequestError` before any download. -/
def download_pod (resp : RawResponse) (unique_id new_filename : String) :
    PodResult :=
  if (pySplitTilde unique_id).length = 1 then
    match track_by_number resp with
    | Except.error _ => PodResult.raisedOther
    | Except.ok none => PodResult.raisedOther
    | Except.ok (some result) =>
      if result.is_valid then
        match result.unique_id with
        | some uid2 => podFinish uid2 new_filename
        | none => PodResult.raisedOther
      else PodResult.raisedInvalidRequest
  else podFinish unique_id new_filename

/-- The latest-event update in isolation (lines 188-190): keep the
current holder unless the new event's timestamp is strictly greater. -/
def latestStep (cur : Option DateAndTimeEvent) (ev : DateAndTimeEvent) :
    Option DateAndTimeEvent :=
  match cur with
  | none => some ev
  | some c => if ev.datetime > c.datetime then some ev else some c

/-- Strict-greater selection of a maximal element by an integer key,
starting from a current holder: the common shape of the latest-event
update (lines 188-190) and the resolver update (lines 211-214). -/
def pickBy {α : Type} (key : α → Int) : α → List α → α
  | cur, [] => cur
  | cur, e :: rest => pickBy key (if key e > key cur then e else cur) rest

/-- The latest timestamp of a result, defaulted; the default is only ever
used where `lsDatetime` is known to be `some`. -/
def tsD (r : TrackingResult) : Int := (lsDatetime r).getD 0

lemma stepEvent_latest (s : NormState) (ev : DateAndTimeEvent) :
    (stepEvent s ev).latest = latestStep s.latest ev := by
  obtain ⟨sh, de, sd, dd, lat, evs⟩ := s
  cases lat with
  | none => simp only [stepEvent, latestStep]; split_ifs <;> simp
  | some c =>
    by_cases hd : ev.datetime > c.datetime
    · simp only [stepEvent, latestStep]; split_ifs <;> simp [hd]
    · simp only [stepEvent, latestStep]; split_ifs <;> simp [hd]

lemma stepEvent_events (s : NormState) (ev : DateAndTimeEvent) :
    (stepEvent s ev).events = s.events ++ [ev] := by
  obtain ⟨sh, de, sd, dd, lat, evs⟩ := s
  cases lat with
  | none => simp only [stepEvent]; split_ifs <;> simp
  | some c =>
    by_cases hd : ev.datetime > c.datetime
    · simp only [stepEvent]; split_ifs <;> simp [hd]
    · simp only [stepEvent]; split_ifs <;> simp [hd]

lemma foldl_latest : ∀ (evts : List DateAndTimeEvent) (s : NormState),
    (evts.foldl stepEvent s).latest = evts.foldl latestStep s.latest
  | [], _ => rfl
  | e :: rest, s => by
    rw [List.foldl_cons, List.foldl_cons, foldl_latest rest, stepEvent_latest]

lemma foldl_events : ∀ (evts : List DateAndTimeEvent) (s : NormState),
    (evts.foldl stepEvent s).events = s.events ++ evts
  | [], s => by simp
  | e :: rest, s => by
    rw [List.foldl_cons, foldl_events rest, stepEvent_events]
    simp

lemma latestStep_some (c ev : DateAndTimeEvent) :
    latestStep (some c) ev
      = some (if ev.datetime > c.datetime then ev else c) := by
  simp only [latestStep]
  split_ifs <;> rfl

lemma foldl_latestStep_pick :
    ∀ (rest : List DateAndTimeEvent) (c : DateAndTimeEvent),
      rest.foldl latestStep (some c)
        = some (pickBy (fun x => x.datetime) c rest)
  | [], _ => rfl
  | e :: rest, c => by
    rw [List.foldl_cons, latestStep_some, foldl_latestStep_pick rest, pickBy]

/-- `pickBy` either keeps the starting holder (when nothing beats it
strictly) or lands on a list element that every earlier element is
strictly below and no element exceeds. -/
lemma pickBy_spec {α : Type} (key : α → Int) :
    ∀ (es : List α) (cur : α),
      (pickBy key cur es = cur ∧ ∀ x ∈ es, key x ≤ key cur) ∨
      (∃ pre r post, es = pre ++ r :: post ∧ pickBy key cur es = r ∧
        key cur < key r ∧ (∀ x ∈ es, key x ≤ key r) ∧
        (∀ x ∈ pre, key x < key r))
  | [], cur => Or.inl ⟨rfl, by simp⟩
  | e :: rest, cur => by
    by_cases h : key e > key cur
    · have h' : key cur < key e := h
      have hstep : pickBy key cur (e :: rest) = pickBy key e rest := by
        rw [pickBy, if_pos h]
      rcases pickBy_spec key rest e with ⟨heq, hall⟩ | ⟨pre, r, post, hsplit, heq, hgt, hmax, hpre⟩
      · refine Or.inr ⟨[], e, rest, by simp, by rw [hstep, heq], h', ?_, by simp⟩
        intro x hx
        rcases List.mem_cons.mp hx with hx | hx
        · exact hx ▸ le_refl _
        · exact hall x hx
      · refine Or.inr ⟨e :: pre, r, post, by rw [hsplit]; rfl, by rw [hstep, heq],
          lt_trans h' hgt, ?_, ?_⟩
        · intro x hx
          rcases List.mem_cons.mp hx with hx | hx
          · subst hx; exact le_of_lt hgt
          · exact hmax x (hsplit ▸ hx)
        · intro x hx
          rcases List.mem_cons.mp hx with hx | hx
          · subst hx; exact hgt
          · exact hpre x hx
    · have hstep : pickBy key cur (e :: rest) = pickBy key cur rest := by
        rw [pickBy, if_neg h]
      push_neg at h
      rcases pickBy_spec key rest cur with ⟨heq, hall⟩ | ⟨pre, r, post, hsplit, heq, hgt, hmax, hpre⟩
      · refine Or.inl ⟨by rw [hstep, heq], ?_⟩
        intro x hx
        rcases List.mem_cons.mp hx with hx | hx
        · exact hx ▸ h
        · exact hall x hx
      · refine Or.inr ⟨e :: pre, r, post, by rw [hsplit]; rfl, by rw [hstep, heq],
          hgt, ?_, ?_⟩
        · intro x hx
          rcases List.mem_cons.mp hx with hx | hx
          · exact hx ▸ le_of_lt (lt_of_le_of_lt h hgt)
          · exact hmax x (hsplit ▸ hx)
        · intro x hx
          rcases List.mem_cons.mp hx with hx | hx
          · exact hx ▸ lt_of_le_of_lt h hgt
          · exact hpre x hx

/-- Started on the head of a non-empty list, `pickBy` lands on the
first-positioned maximal element: a split of the list in which every
element before the chosen one is strictly below it and nothing exceeds
it. -/
lemma pickBy_first_max {α : Type} (key : α → Int) (e : α) (rest : List α) :
    ∃ pre r post, e :: rest = pre ++ r :: post ∧ pickBy key e rest = r ∧
      (∀ x ∈ e :: rest, key x ≤ key r) ∧ (∀ x ∈ pre, key x < key r) := by
  rcases pickBy_spec key rest e with ⟨heq, hall⟩ | ⟨pre, r, post, hsplit, heq, hgt, hmax, hpre⟩
  · refine ⟨[], e, rest, by simp, heq, ?_, by simp⟩
    intro x hx
    rcases List.mem_cons.mp hx with hx | hx
    · exact hx ▸ le_refl _
    · exact hall x hx
  · refine ⟨e :: pre, r, post, by rw [hsplit]; rfl, heq, ?_, ?_⟩
    · intro x hx
      rcases List.mem_cons.mp hx with hx | hx
      · exact hx ▸ le_of_lt hgt
      · exact hmax x (hsplit ▸ hx)
    · intro x hx
      rcases List.mem_cons.mp hx with hx | hx
      · exact hx ▸ hgt
      · exact hpre x hx

lemma normalize_latest (tn uid cc : String) (e : DateAndTimeEvent)
    (rest : List DateAndTimeEvent) :
    (normalizeEvents tn uid cc (e :: rest)).latest_status
      = some (pickBy (fun x => x.datetime) e rest) := by
  show ((e :: rest).foldl stepEvent initState).latest = _
  rw [foldl_latest, List.foldl_cons]
  exact foldl_latestStep_pick rest e

lemma resolveLoop_pick :
    ∀ (rs : List TrackingResult) (cur : TrackingResult) (curd : Int),
      lsDatetime cur = some curd →
      (∀ r ∈ rs, (lsDatetime r).isSome) →
      resolveLoop (some curd) (some cur) rs
        = Except.ok (some (pickBy tsD cur rs))
  | [], _, _, _, _ => rfl
  | r :: rest, cur, curd, hc, hv => by
    obtain ⟨d, hd⟩ := Option.isSome_iff_exists.mp (hv r (List.mem_cons_self r rest))
    have hcurd : tsD cur = curd := by simp [tsD, hc]
    have hrd : tsD r = d := by simp [tsD, hd]
    simp only [resolveLoop, hd]
    rw [pickBy, hrd, hcurd]
    by_cases hgt : d > curd
    · rw [if_pos hgt, if_pos hgt]
      exact resolveLoop_pick rest r d hd fun x hx => hv x (List.mem_cons_of_mem r hx)
    · rw [if_neg hgt, if_neg hgt]
      exact resolveLoop_pick rest cur curd hc fun x hx => hv x (List.mem_cons_of_mem r hx)

lemma processEvents_ok_of_known :
    ∀ (raws : List RawEvent) (s : NormState),
      (∀ e ∈ raws, (eventFromTag e.typeTag).isSome) →
      ∃ s2, processEvents s raws = Except.ok s2
  | [], s, _ => ⟨s, rfl⟩
  | e :: rest, s, h => by
    obtain ⟨k, hk⟩ := Option.isSome_iff_exists.mp (h e (List.mem_cons_self e rest))
    rw [processEvents, hk]
    exact processEvents_ok_of_known rest _ fun x hx => h x (List.mem_cons_of_mem e hx)

lemma processEvents_unknown_error :
    ∀ (raws : List RawEvent) (s : NormState),
      (∃ e ∈ raws, eventFromTag e.typeTag = none) →
      ∃ tag, eventFromTag tag = none ∧
        processEvents s raws = Except.error (PyFault.keyError tag)
  | [], _, h => by simp at h
  | e :: rest, s, h => by
    cases hk : eventFromTag e.typeTag with
    | none => exact ⟨e.typeTag, hk, by rw [processEvents, hk]⟩
    | some k =>
      obtain ⟨x, hx, hxnone⟩ := h
      have hxrest : x ∈ rest := by
        rcases List.mem_cons.mp hx with hx | hx
        · exact absurd hxnone (by rw [hx, hk]; simp)
        · exact hx
      obtain ⟨tag, htag, hp⟩ :=
        processEvents_unknown_error rest (stepEvent s ⟨e.dateTime, k⟩) ⟨x, hxrest, hxnone⟩
      exact ⟨tag, htag, by rw [processEvents, hk]; exact hp⟩

lemma processResults_early :
    ∀ (pre : List RawTrackResult) (tr : RawTrackResult)
      (post : List RawTrackResult) (acc : List TrackingResult),
      tr.dateAndTimes = none →
      (∀ p ∈ pre, ∃ raws, p.dateAndTimes = some raws ∧
        ∀ e ∈ raws, (eventFromTag e.typeTag).isSome) →
      processResults acc (pre ++ tr :: post) = Except.ok none
  | [], tr, post, acc, htr, _ => by rw [List.nil_append, processResults, htr]
  | p :: pre, tr, post, acc, htr, hpre => by
    obtain ⟨raws, hr, hknown⟩ := hpre p (List.mem_cons_self p pre)
    obtain ⟨s2, hs2⟩ := processEvents_ok_of_known raws initState hknown
    rw [List.cons_append]
    simp only [processResults, hr, hs2]
    exact processResults_early pre tr post _ htr
      fun q hq => hpre q (List.mem_cons_of_mem p hq)

lemma processResults_unknown_error :
    ∀ (l : List RawTrackResult) (acc : List TrackingResult),
      (∀ tr ∈ l, ∃ raws, tr.dateAndTimes = some raws) →
      (∃ tr ∈ l, ∃ raws, tr.dateAndTimes = some raws ∧
        ∃ e ∈ raws, eventFromTag e.typeTag = none) →
      ∃ tag, eventFromTag tag = none ∧
        processResults acc l = Except.error (PyFault.keyError tag)
  | [], _, _, hex => by simp at hex
  | tr :: rest, acc, hall, hex => by
    obtain ⟨raws, hraws⟩ := hall tr (List.mem_cons_self tr rest)
    by_cases hbad : ∃ e ∈ raws, eventFromTag e.typeTag = none
    · obtain ⟨tag, htag, hp⟩ := processEvents_unknown_error raws initState hbad
      exact ⟨tag, htag, by simp only [processResults, hraws, hp]⟩
    · have hknown : ∀ e ∈ raws, (eventFromTag e.typeTag).isSome := by
        intro e he
        rcases hk : eventFromTag e.typeTag with _ | k
        · exact absurd ⟨e, he, hk⟩ hbad
        · simp
      obtain ⟨s2, hs2⟩ := processEvents_ok_of_known raws initState hknown
      have hexrest : ∃ tr2 ∈ rest, ∃ raws2, tr2.dateAndTimes = some raws2 ∧
          ∃ e ∈ raws2, eventFromTag e.typeTag = none := by
        obtain ⟨tr2, htr2, raws2, hraws2, he⟩ := hex
        rcases List.mem_cons.mp htr2 with htr2 | htr2
        · subst htr2
          rw [hraws] at hraws2
          exact absurd (Option.some_inj.mp hraws2 ▸ he) hbad
        · exact ⟨tr2, htr2, raws2, hraws2, he⟩
      obtain ⟨tag, htag, hp⟩ := processResults_unknown_error rest
        (acc ++ [buildResult tr.trackingNumber tr.uniqueId tr.carrierCode s2])
        (fun q hq => hall q (List.mem_cons_of_mem tr hq)) hexrest
      exact ⟨tag, htag, by simp only [processResults, hraws, hs2]; exact hp⟩

/-- C1: the claim — an ESTIMATED_DELIVERY event never overwrites a
delivery date set by ACTUAL_DELIVERY, so a delivered result always
reports the ACTUAL_DELIVERY timestamp — is FALSE of the code.  On the
sequence [ACTUAL_DELIVERY at time 1, ESTIMATED_DELIVERY at time 2] the
normalizer reports is_delivered = true yet date_delivery = 2, the
timestamp of the estimate, not 1: the ESTIMATED_DELIVERY branch
(source lines 186-187) assigns delivery_date without consulting the
delivered flag, contradicting the comment on the date_delivery field
(source line 108). -/
theorem normalizer_estimated_after_actual_overwrites :
    (normalizeEvents "tn" "uid" "cc"
      [⟨1, Event.ACTUAL_DELIVERY⟩, ⟨2, Event.ESTIMATED_DELIVERY⟩]).is_delivered
      = some true ∧
    (normalizeEvents "tn" "uid" "cc"
      [⟨1, Event.ACTUAL_DELIVERY⟩, ⟨2, Event.ESTIMATED_DELIVERY⟩]).date_delivery
      = some 2 ∧
    (normalizeEvents "tn" "uid" "cc"
      [⟨1, Event.ACTUAL_DELIVERY⟩, ⟨2, Event.ESTIMATED_DELIVERY⟩]).date_delivery
      ≠ some 1 :=
  ⟨by decide, by decide, by decide⟩

/-- C2: the claim — an empty events sequence makes normalization fail
rather than produce a valid outcome — is FALSE of the code: on an empty
event list the normalizer returns a result with is_valid = true, an
undefined latest event (the None, None pair) and an empty events list. -/
theorem normalizer_empty_events_returns_valid (tn uid cc : String) :
    (normalizeEvents tn uid cc []).is_valid = true ∧
    (normalizeEvents tn uid cc []).latest_status = none ∧
    (normalizeEvents tn uid cc []).events = some [] :=
  ⟨rfl, rfl, rfl⟩

/-- C3: the claim — the resolver fails with NoResultsError on an empty
sequence of outcomes — is FALSE of the code: the resolution loop falls
through and the function returns Python None (no exception is raised),
both for the bare resolver and for track_by_number on a response that
decodes to zero result blocks. -/
theorem resolver_empty_returns_none :
    resolveResults [] = Except.ok none ∧
    track_by_number (RawResponse.ok []) = Except.ok none :=
  ⟨rfl, rfl⟩

/-- C4: for every non-empty event sequence, latest_status of the
normalized result is an event of the sequence whose timestamp no event
exceeds, and every event positioned before it has a strictly smaller
timestamp — so on equal timestamps the earliest-positioned event is
kept and a later-position event never replaces it. -/
theorem normalizer_latest_event_first_max (tn uid cc : String)
    (evts : List DateAndTimeEvent) (h : evts ≠ []) :
    ∃ pre lat post, evts = pre ++ lat :: post ∧
      (normalizeEvents tn uid cc evts).latest_status = some lat ∧
      (∀ x ∈ evts, x.datetime ≤ lat.datetime) ∧
      (∀ x ∈ pre, x.datetime < lat.datetime) := by
  match evts, h with
  | e :: rest, _ =>
    obtain ⟨pre, r, post, hsplit, heq, hmax, hpre⟩ :=
      pickBy_first_max (fun x => x.datetime) e rest
    refine ⟨pre, r, post, hsplit, ?_, ?_, ?_⟩
    · rw [normalize_latest, heq]
    · simpa using hmax
    · simpa using hpre

/-- Witness for C4 at the §8 example: events at timestamps 5, 9, 9. -/
theorem normalizer_latest_event_first_max_witness :
    ∃ pre lat post,
      ([⟨5, Event.COMMITMENT⟩, ⟨9, Event.SHIP⟩, ⟨9, Event.ACTUAL_DELIVERY⟩] :
          List DateAndTimeEvent) = pre ++ lat :: post ∧
      (normalizeEvents "tn" "uid" "cc"
        [⟨5, Event.COMMITMENT⟩, ⟨9, Event.SHIP⟩,
          ⟨9, Event.ACTUAL_DELIVERY⟩]).latest_status = some lat ∧
      (∀ x ∈ ([⟨5, Event.COMMITMENT⟩, ⟨9, Event.SHIP⟩,
          ⟨9, Event.ACTUAL_DELIVERY⟩] : List DateAndTimeEvent),
        x.datetime ≤ lat.datetime) ∧
      (∀ x ∈ pre, x.datetime < lat.datetime) :=
  normalizer_latest_event_first_max "tn" "uid" "cc"
    [⟨5, Event.COMMITMENT⟩, ⟨9, Event.SHIP⟩, ⟨9, Event.ACTUAL_DELIVERY⟩]
    (by decide)

/-- C5: for a non-empty list of outcomes that all carry a latest event
(as every valid normalized outcome does), the resolver returns exactly
the first-positioned outcome whose latest timestamp no other outcome
exceeds: strictly-greater comparison, first seen wins ties. -/
theorem resolver_picks_first_max (rs : List TrackingResult) (h : rs ≠ [])
    (hv : ∀ r ∈ rs, (lsDatetime r).isSome) :
    ∃ pre best post db, rs = pre ++ best :: post ∧
      resolveResults rs = Except.ok (some best) ∧
      lsDatetime best = some db ∧
      (∀ x ∈ rs, ∀ dx, lsDatetime x = some dx → dx ≤ db) ∧
      (∀ x ∈ pre, ∀ dx, lsDatetime x = some dx → dx < db) := by
  match rs, h, hv with
  | r :: rest, _, hv =>
    obtain ⟨d, hd⟩ := Option.isSome_iff_exists.mp (hv r (List.mem_cons_self r rest))
    have hres : resolveResults (r :: rest)
        = Except.ok (some (pickBy tsD r rest)) := by
      show resolveLoop none none (r :: rest) = _
      simp only [resolveLoop]
      rw [hd]
      exact resolveLoop_pick rest r d hd
        fun x hx => hv x (List.mem_cons_of_mem r hx)
    obtain ⟨pre, best, post, hsplit, heq, hmax, hpre⟩ := pickBy_first_max tsD r rest
    obtain ⟨db, hdb⟩ :=
      Option.isSome_iff_exists.mp (hv best (by rw [hsplit]; simp))
    refine ⟨pre, best, post, db, hsplit, by rw [hres, heq], hdb, ?_, ?_⟩
    · intro x hx dx hdx
      have hb := hmax x hx
      simpa [tsD, hdx, hdb] using hb
    · intro x hx dx hdx
      have hb := hpre x hx
      simpa [tsD, hdx, hdb] using hb

/-- Witness for C5 at the §8 example: latest timestamps 1, 3, 2 — the
outcome with timestamp 3 is returned. -/
theorem resolver_picks_first_max_witness :
    ∃ pre best post db,
      ([{ is_valid := true, latest_status := some ⟨1, Event.SHIP⟩ },
        { is_valid := true, latest_status := some ⟨3, Event.ACTUAL_DELIVERY⟩ },
        { is_valid := true, latest_status := some ⟨2, Event.COMMITMENT⟩ }] :
          List TrackingResult) = pre ++ best :: post ∧
      resolveResults
        [{ is_valid := true, latest_status := some ⟨1, Event.SHIP⟩ },
         { is_valid := true, latest_status := some ⟨3, Event.ACTUAL_DELIVERY⟩ },
         { is_valid := true, latest_status := some ⟨2, Event.COMMITMENT⟩ }]
        = Except.ok (some best) ∧
      lsDatetime best = some db ∧
      (∀ x ∈ ([{ is_valid := true, latest_status := some ⟨1, Event.SHIP⟩ },
          { is_valid := true, latest_status := some ⟨3, Event.ACTUAL_DELIVERY⟩ },
          { is_valid := true, latest_status := some ⟨2, Event.COMMITMENT⟩ }] :
            List TrackingResult), ∀ dx, lsDatetime x = some dx → dx ≤ db) ∧
      (∀ x ∈ pre, ∀ dx, lsDatetime x = some dx → dx < db) :=
  resolver_picks_first_max
    [{ is_valid := true, latest_status := some ⟨1, Event.SHIP⟩ },
     { is_valid := true, latest_status := some ⟨3, Event.ACTUAL_DELIVERY⟩ },
     { is_valid := true, latest_status := some ⟨2, Event.COMMITMENT⟩ }]
    (by decide) (by decide)

/-- C6: the orchestrator returns TrackingResult(False) — with every
other field left at its None default — in each of the three scenarios:
the transport call fails with an HTTP-status error; the response body
carries an errors key; a contained result block is missing the
dateAndTimes substructure (every block iterated before it being
well-formed, so that the early return at line 176 is reached). -/
theorem track_invalid_outcomes :
    track_by_number RawResponse.httpError
      = Except.ok (some TrackingResult.invalid) ∧
    track_by_number RawResponse.jsonErrors
      = Except.ok (some TrackingResult.invalid) ∧
    (∀ (blocks : List (List RawTrackResult)) (pre : List RawTrackResult)
        (tr : RawTrackResult) (post : List RawTrackResult),
      blocks.flatten = pre ++ tr :: post →
      tr.dateAndTimes = none →
      (∀ p ∈ pre, ∃ raws, p.dateAndTimes = some raws ∧
        ∀ e ∈ raws, (eventFromTag e.typeTag).isSome) →
      track_by_number (RawResponse.ok blocks)
        = Except.ok (some TrackingResult.invalid)) ∧
    (TrackingResult.invalid.is_valid = false ∧
      TrackingResult.invalid.tracking_number = none ∧
      TrackingResult.invalid.unique_id = none ∧
      TrackingResult.invalid.carrier_code = none ∧
      TrackingResult.invalid.is_delivered = none ∧
      TrackingResult.invalid.is_shipped = none ∧
      TrackingResult.invalid.date_ship = none ∧
      TrackingResult.invalid.date_delivery = none ∧
      TrackingResult.invalid.latest_status = none ∧
      TrackingResult.invalid.events = none ∧
      TrackingResult.invalid.package = none) := by
  refine ⟨rfl, rfl, ?_, by decide⟩
  intro blocks pre tr post hflat htr hpre
  have hearly := processResults_early pre tr post [] htr hpre
  rw [← hflat] at hearly
  simp only [track_by_number, hearly]

/-- Witness for C6: a single result block without dateAndTimes. -/
theorem track_invalid_outcomes_witness :
    track_by_number (RawResponse.ok [[⟨"t", "u", "c", none⟩]])
      = Except.ok (some TrackingResult.invalid) :=
  track_invalid_outcomes.2.2.1 [[⟨"t", "u", "c", none⟩]] []
    ⟨"t", "u", "c", none⟩ [] rfl rfl (by simp)

/-- C7 counterexample: the claim — a response containing an event with
an unrecognized kind tag ALWAYS fails with the decode fault, never being
swallowed into a valid false outcome — is false as stated: when an
earlier result block is missing the dateAndTimes substructure, the early
return at line 176 preempts decoding, and track_by_number returns
TrackingResult(False) although the response contains the unknown tag
BOGUS. -/
theorem unknown_tag_swallowed_counterexample :
    eventFromTag "BOGUS" = none ∧
    track_by_number (RawResponse.ok
        [[⟨"t", "u", "c", none⟩, ⟨"t", "u", "c", some [⟨"BOGUS", 0⟩]⟩]])
      = Except.ok (some TrackingResult.invalid) :=
  ⟨by decide, rfl⟩

/-- C7 amended: provided every result block of the response carries the
dateAndTimes substructure (so the missing-events early return cannot
preempt decoding), a response containing an event whose kind tag is not
a member of the Event enumeration makes track_by_number fail with the
KeyError decode fault for an unrecognized tag, propagating to the caller
instead of being swallowed into a valid false outcome. -/
theorem unknown_tag_raises_keyerror (blocks : List (List RawTrackResult))
    (hall : ∀ tr ∈ blocks.flatten, ∃ raws, tr.dateAndTimes = some raws)
    (hex : ∃ tr ∈ blocks.flatten, ∃ raws, tr.dateAndTimes = some raws ∧
      ∃ e ∈ raws, eventFromTag e.typeTag = none) :
    ∃ tag, eventFromTag tag = none ∧
      track_by_number (RawResponse.ok blocks)
        = Except.error (PyFault.keyError tag) := by
  obtain ⟨tag, htag, hp⟩ := processResults_unknown_error blocks.flatten [] hall hex
  exact ⟨tag, htag, by simp only [track_by_number, hp]⟩

/-- Witness for the amended C7: one block, one event, tag BOGUS. -/
theorem unknown_tag_raises_keyerror_witness :
    ∃ tag, eventFromTag tag = none ∧
      track_by_number (RawResponse.ok [[⟨"t", "u", "c", some [⟨"BOGUS", 0⟩]⟩]])
        = Except.error (PyFault.keyError tag) :=
  unknown_tag_raises_keyerror [[⟨"t", "u", "c", some [⟨"BOGUS", 0⟩]⟩]]
    (by intro tr htr
        simp only [List.flatten, List.append_nil, List.mem_singleton] at htr
        subst htr
        exact ⟨[⟨"BOGUS", 0⟩], rfl⟩)
    ⟨⟨"t", "u", "c", some [⟨"BOGUS", 0⟩]⟩, by simp,
      [⟨"BOGUS", 0⟩], rfl, ⟨"BOGUS", 0⟩, by simp, by decide⟩

/-- C8: when the supplied identifier is a bare tracking number (its
tilde-split has a single piece) and resolution yields a result with
is_valid false, download_pod raises InvalidRequestError and the document
download is never attempted. -/
theorem download_pod_rejects_invalid_resolution (resp : RawResponse)
    (uid fname : String) (r : TrackingResult)
    (hbare : (pySplitTilde uid).length = 1)
    (htrack : track_by_number resp = Except.ok (some r))
    (hinvalid : r.is_valid = false) :
    download_pod resp uid fname = PodResult.raisedInvalidRequest ∧
    ∀ q tn f2, download_pod resp uid fname ≠ PodResult.downloaded q tn f2 := by
  have hmain : download_pod resp uid fname = PodResult.raisedInvalidRequest := by
    simp only [download_pod, hbare, htrack, hinvalid]
    simp
  refine ⟨hmain, ?_⟩
  intro q tn f2 hcon
  rw [hmain] at hcon
  exact PodResult.noConfusion hcon

/-- Witness for C8: bare id 12345, transport reporting an HTTP failure,
so resolution yields the invalid result. -/
theorem download_pod_rejects_invalid_resolution_witness :
    download_pod RawResponse.httpError "12345" "pod.pdf"
      = PodResult.raisedInvalidRequest ∧
    ∀ q tn f2, download_pod RawResponse.httpError "12345" "pod.pdf"
      ≠ PodResult.downloaded q tn f2 :=
  download_pod_rejects_invalid_resolution RawResponse.httpError "12345" "pod.pdf"
    TrackingResult.invalid (by decide) rfl rfl

/-- C9: the events field of the normalized result is exactly the input
sequence in its original order — not sorted, not deduplicated, with
duplicate events preserved verbatim. -/
theorem normalizer_preserves_events_verbatim (tn uid cc : String)
    (evts : List DateAndTimeEvent) :
    (normalizeEvents tn uid cc evts).events = some evts := by
  show some ((evts.foldl stepEvent initState).events) = some evts
  rw [foldl_events]
  rfl

/-- C10: for every non-empty event sequence, the latest_status of the
normalized result is (the timestamp and kind of) a single event of the
events sequence — never a timestamp of one event paired with the kind of
another. -/
theorem normalizer_latest_is_an_event (tn uid cc : String)
    (evts : List DateAndTimeEvent) (h : evts ≠ []) :
    ∃ ev, ev ∈ evts ∧
      (normalizeEvents tn uid cc evts).latest_status = some ev := by
  match evts, h with
  | e :: rest, _ =>
    obtain ⟨pre, r, post, hsplit, heq, _, _⟩ :=
      pickBy_first_max (fun x => x.datetime) e rest
    refine ⟨r, ?_, by rw [normalize_latest, heq]⟩
    rw [hsplit]
    simp

/-- Witness for C10. -/
theorem normalizer_latest_is_an_event_witness :
    ∃ ev, ev ∈ ([⟨3, Event.SHIP⟩, ⟨7, Event.ACTUAL_DELIVERY⟩] :
        List DateAndTimeEvent) ∧
      (normalizeEvents "a" "b" "c"
        [⟨3, Event.SHIP⟩, ⟨7, Event.ACTUAL_DELIVERY⟩]).latest_status = some ev :=
  normalizer_latest_is_an_event "a" "b" "c"
    [⟨3, Event.SHIP⟩, ⟨7, Event.ACTUAL_DELIVERY⟩] (by decide)
